import Mathlib

/-!
Verification of the candidate-ranking demo (`src/main.py`) against its
specification of a multi-space hybrid vector index with event-driven
attribute decay.  The repository source is glue code driving an external
engine; the engine itself is reconstructed here from the specification
(definitions marked "Modelled from the spec"), while the concrete demo
data (skill weights, candidate records, evaluations, query weights, the
injected clock) is embedded from `src/main.py`.
-/

namespace CandidateRanking

/-! ### Generic Bool-valued sorting (used by the Query Planner/Scorer) -/

/-- Insert an element into a list so that, if the list was sorted by `le`,
the result is sorted by `le`. -/
def insertSorted {α : Type} (le : α → α → Bool) (a : α) : List α → List α
  | [] => [a]
  | b :: bs => if le a b then a :: b :: bs else b :: insertSorted le a bs

/-- Insertion sort by a Bool-valued comparison. -/
def insertionSortB {α : Type} (le : α → α → Bool) : List α → List α
  | [] => []
  | a :: as => insertSorted le a (insertionSortB le as)

theorem insertSorted_perm {α : Type} (le : α → α → Bool) (a : α) (l : List α) :
    List.Perm (insertSorted le a l) (a :: l) := by
  induction l with
  | nil => simp [insertSorted]
  | cons b bs ih =>
    simp only [insertSorted]
    by_cases h : le a b
    · simp [h]
    · simp only [h, if_neg]
      exact (List.Perm.cons b ih).trans (List.Perm.swap a b bs)

theorem insertionSortB_perm {α : Type} (le : α → α → Bool) (l : List α) :
    List.Perm (insertionSortB le l) l := by
  induction l with
  | nil => simp [insertionSortB]
  | cons a as ih =>
    exact (insertSorted_perm le a (insertionSortB le as)).trans (List.Perm.cons a ih)

theorem mem_insertSorted {α : Type} (le : α → α → Bool) (a x : α) (l : List α) :
    x ∈ insertSorted le a l ↔ x = a ∨ x ∈ l := by
  constructor
  · intro hx
    have := (insertSorted_perm le a l).mem_iff.mp hx
    simpa using this
  · intro hx
    apply (insertSorted_perm le a l).mem_iff.mpr
    simpa using hx

theorem insertSorted_pairwise {α : Type} (le : α → α → Bool)
    (htot : ∀ a b, le a b = true ∨ le b a = true)
    (htrans : ∀ a b c, le a b = true → le b c = true → le a c = true)
    (a : α) (l : List α) (hl : l.Pairwise (fun x y => le x y = true)) :
    (insertSorted le a l).Pairwise (fun x y => le x y = true) := by
  induction l with
  | nil => simp [insertSorted]
  | cons b bs ih =>
    rcases List.pairwise_cons.mp hl with ⟨hb, hbs⟩
    simp only [insertSorted]
    by_cases h : le a b
    · simp only [h, if_pos]
      refine List.pairwise_cons.mpr ⟨?_, hl⟩
      intro x hx
      rcases List.mem_cons.mp hx with rfl | hx
      · exact h
      · exact htrans a b x h (hb x hx)
    · simp only [h, if_neg]
      refine List.pairwise_cons.mpr ⟨?_, ih hbs⟩
      intro x hx
      rcases (mem_insertSorted le a x bs).mp hx with hxa | hx
      · subst hxa
        rcases htot x b with hab | hba
        · exact absurd hab h
        · exact hba
      · exact hb x hx

theorem insertionSortB_pairwise {α : Type} (le : α → α → Bool)
    (htot : ∀ a b, le a b = true ∨ le b a = true)
    (htrans : ∀ a b c, le a b = true → le b c = true → le a c = true)
    (l : List α) :
    (insertionSortB le l).Pairwise (fun x y => le x y = true) := by
  induction l with
  | nil => simp [insertionSortB]
  | cons a as ih =>
    exact insertSorted_pairwise le htot htrans a (insertionSortB le as) ih

/-! ### Lexicographic order on entity ids (strings) -/

/-- Lexicographic comparison of char lists by code point. -/
def charListLE : List Char → List Char → Bool
  | [], _ => true
  | _ :: _, [] => false
  | a :: as, b :: bs =>
    if a.toNat < b.toNat then true
    else if b.toNat < a.toNat then false
    else charListLE as bs

/-- Entity ids compare by the lexicographic order of their characters. -/
def strLE (a b : String) : Bool := charListLE a.data b.data

theorem charListLE_total (as bs : List Char) :
    charListLE as bs = true ∨ charListLE bs as = true := by
  induction as generalizing bs with
  | nil => left; simp [charListLE]
  | cons a as ih =>
    cases bs with
    | nil => right; simp [charListLE]
    | cons b bs =>
      simp only [charListLE]
      rcases Nat.lt_trichotomy a.toNat b.toNat with h | h | h
      · left; simp [h]
      · have h1 : ¬ a.toNat < b.toNat := by omega
        have h2 : ¬ b.toNat < a.toNat := by omega
        rcases ih bs with hc | hc
        · left; simp [h1, h2, hc]
        · right; simp [h1, h2, hc]
      · right; simp [h, Nat.lt_asymm h]

theorem charListLE_trans (as bs cs : List Char)
    (h1 : charListLE as bs = true) (h2 : charListLE bs cs = true) :
    charListLE as cs = true := by
  induction as generalizing bs cs with
  | nil => simp [charListLE]
  | cons a as ih =>
    cases bs with
    | nil => simp [charListLE] at h1
    | cons b bs =>
      cases cs with
      | nil => simp [charListLE] at h2
      | cons c cs =>
        simp only [charListLE] at h1 h2 ⊢
        by_cases hab : a.toNat < b.toNat
        · by_cases hbc : b.toNat < c.toNat
          · simp [Nat.lt_trans hab hbc]
          · by_cases hcb : c.toNat < b.toNat
            · simp [hbc, hcb] at h2
            · have hac : a.toNat < c.toNat := by omega
              simp [hac]
        · by_cases hba : b.toNat < a.toNat
          · simp [hab, hba] at h1
          · have h1' : charListLE as bs = true := by simpa [hab, hba] using h1
            by_cases hbc : b.toNat < c.toNat
            · have hac : a.toNat < c.toNat := by omega
              simp [hac]
            · by_cases hcb : c.toNat < b.toNat
              · simp [hbc, hcb] at h2
              · have h2' : charListLE bs cs = true := by simpa [hbc, hcb] using h2
                have hac : ¬ a.toNat < c.toNat := by omega
                have hca : ¬ c.toNat < a.toNat := by omega
                simpa [hac, hca] using ih bs cs h1' h2'

theorem strLE_total (a b : String) : strLE a b = true ∨ strLE b a = true :=
  charListLE_total a.data b.data

theorem strLE_trans (a b c : String) (h1 : strLE a b = true) (h2 : strLE b c = true) :
    strLE a c = true :=
  charListLE_trans a.data b.data c.data h1 h2

/-! ### Vector spaces -/

/-- Direction of "goodness" for a bounded-number space, as in
`sl.Mode.MINIMUM` / `sl.Mode.MAXIMUM` used by `src/main.py`. -/
inductive Mode where
  | MINIMUM
  | MAXIMUM
deriving DecidableEq

/-- Clamp a rational to the unit interval. -/
def clamp01 (x : ℚ) : ℚ := max 0 (min 1 x)

/-- Configuration of a bounded-number space (`sl.NumberSpace` in the source:
`min_value`, `max_value`, `mode`). -/
structure BoundedNumberConfig where
  min_value : ℚ
  max_value : ℚ
  mode : Mode
deriving DecidableEq

/-- Modelled from the spec: the BoundedNumber space's `compute` (the engine
behind `sl.NumberSpace` is not in the repository).  Maps scalar `x` to
`clamp((x - min)/(max - min), 0, 1)` for mode MAXIMUM and to one minus that
for mode MINIMUM, producing a 1-dimensional vector. -/
def boundedCompute (cfg : BoundedNumberConfig) (x : ℚ) : List ℚ :=
  let c := clamp01 ((x - cfg.min_value) / (cfg.max_value - cfg.min_value))
  match cfg.mode with
  | Mode.MAXIMUM => [c]
  | Mode.MINIMUM => [1 - c]

/-- Raw attribute values an entity may carry (text, number, or vector). -/
inductive RawValue where
  | text (s : String)
  | num (q : ℚ)
  | vec (v : List ℚ)
deriving DecidableEq

/-- Modelled from the spec: an entity is an opaque string id plus a mapping
from attribute name to raw value. -/
structure Entity where
  id : String
  attrs : List (String × RawValue)
deriving DecidableEq

/-- Look up an attribute of an entity by name. -/
def Entity.attr (e : Entity) (name : String) : Option RawValue :=
  e.attrs.lookup name

/-- Modelled from the spec: the three space kinds of the reconstructed
engine.  A text-similarity space carries its injected embedding function and
its declared dimension; a raw-vector space carries its fixed length. -/
inductive SpaceKind where
  | textSimilarity (embed : String → List ℚ) (d : ℕ)
  | boundedNumber (cfg : BoundedNumberConfig)
  | rawVector (length : ℕ)

/-- A registered space: a kind plus the source attribute name. -/
structure Space where
  kind : SpaceKind
  attr : String

/-- Dimension of a space's output. -/
def spaceDim : SpaceKind → ℕ
  | SpaceKind.textSimilarity _ d => d
  | SpaceKind.boundedNumber _ => 1
  | SpaceKind.rawVector n => n

/-- Errors of the reconstructed engine's space layer. -/
inductive SpaceError where
  | DimensionMismatch
  | UnknownSpaceInput
deriving DecidableEq

/-- Modelled from the spec: `compute(entity) -> Vector_d`.  TextSimilarity
delegates to the injected embedding function; BoundedNumber normalizes a
scalar; RawVector passes a numeric attribute through and fails with
`DimensionMismatch` if its arity differs from the declared length. -/
def Space.compute (s : Space) (e : Entity) : Except SpaceError (List ℚ) :=
  match s.kind, e.attr s.attr with
  | SpaceKind.textSimilarity embed _, some (RawValue.text t) => Except.ok (embed t)
  | SpaceKind.boundedNumber cfg, some (RawValue.num q) => Except.ok (boundedCompute cfg q)
  | SpaceKind.rawVector n, some (RawValue.vec v) =>
      if v.length = n then Except.ok v else Except.error SpaceError.DimensionMismatch
  | _, _ => Except.error SpaceError.UnknownSpaceInput

/-- Modelled from the spec: `register(space)` appends a space to the index
layout after a dry-run probe; a space whose probe output length mismatches
its declared dimension is a fatal configuration error at registration time. -/
def registerSpace (index : List Space) (s : Space) (probe : Entity) :
    Except SpaceError (List Space) :=
  match s.compute probe with
  | Except.ok v =>
      if v.length = spaceDim s.kind then Except.ok (index ++ [s])
      else Except.error SpaceError.DimensionMismatch
  | Except.error e => Except.error e

/-- Modelled from the spec: compute every registered space's contribution
and concatenate them into the composite vector. -/
def compositeVector (spaces : List Space) (e : Entity) : Except SpaceError (List ℚ) :=
  match spaces with
  | [] => Except.ok []
  | s :: rest =>
      match s.compute e with
      | Except.error err => Except.error err
      | Except.ok v =>
          match compositeVector rest e with
          | Except.error err => Except.error err
          | Except.ok vs => Except.ok (v ++ vs)

/-- Sum of the registered spaces' dimensions. -/
def sumDims (spaces : List Space) : ℕ := (spaces.map (fun s => spaceDim s.kind)).sum

/-- Modelled from the spec: the index's per-entity composite-vector store;
`upsert` replaces any previous vector for the id (last-write-wins). -/
def upsertStore (store : List (String × List ℚ)) (id : String) (v : List ℚ) :
    List (String × List ℚ) :=
  (id, v) :: store.filter (fun p => p.1 ≠ id)

/-- Modelled from the spec: `vector_of(id)`, none if the id was never ingested. -/
def vectorOf (store : List (String × List ℚ)) (id : String) : Option (List ℚ) :=
  store.lookup id

/-- Modelled from the spec: `upsert(entity)` computes the composite vector
and writes it to the store. -/
def upsert (spaces : List Space) (store : List (String × List ℚ)) (e : Entity) :
    Except SpaceError (List (String × List ℚ)) :=
  match compositeVector spaces e with
  | Except.ok v => Except.ok (upsertStore store e.id v)
  | Except.error err => Except.error err

/-- A text-similarity space is well-formed when its injected embedding
function honours the stable contract of the spec's embedding boundary:
every output has the declared dimension.  Other kinds are always well-formed. -/
def SpaceWF (s : Space) : Prop :=
  match s.kind with
  | SpaceKind.textSimilarity embed d => ∀ t, (embed t).length = d
  | _ => True

/-! ### Event Propagation Engine -/

/-- Modelled from the spec: the decayed contribution of one event in a
contribution stream (the engine behind `sl.Effect` / `event_influence` /
`temperature` is not in the repository).  With decay enabled the event's
weight is multiplied by `exp(-(now - timestamp) / temperature)`; the
disabled-decay flag (the spec's `temperature → ∞` mode) weights every event
equally. -/
noncomputable def eventContribution (decayDisabled : Bool) (temperature : ℝ)
    (w : ℝ) (now t : ℝ) : ℝ :=
  w * (if decayDisabled then 1 else Real.exp (-((now - t) / temperature)))

/-- An event as seen by one contribution stream: the affecting entity's
scalar value in the affected space, the per-event weight, and the event
timestamp (epoch seconds). -/
structure StreamEvent where
  value : ℚ
  weight : ℚ
  timestamp : ℤ
deriving DecidableEq

/-- Modelled from the spec: the uniform (decay-disabled) aggregate of one
contribution stream — the weighted average of the events' values. -/
def streamUniformAggregate (evs : List StreamEvent) : ℚ :=
  (evs.map (fun e => e.weight * e.value)).sum / (evs.map (fun e => e.weight)).sum

/-- Modelled from the spec: the per-space event aggregate is the weighted
sum of the contribution streams; a stream that has received zero events is
left out of the sum (its value is the "not evaluated" sentinel, not zero). -/
def spaceEventAggregate (streams : List (ℚ × List StreamEvent)) : ℚ :=
  ((streams.filter (fun s => !s.2.isEmpty)).map
    (fun s => s.1 * streamUniformAggregate s.2)).sum

/-- Modelled from the spec: the `event_influence` blend,
`final = (1 - influence) * baseline + influence * event_aggregate`. -/
def blend (influence baseline aggregate : ℚ) : ℚ :=
  (1 - influence) * baseline + influence * aggregate

/-- Modelled from the spec: the value the engine holds for an
(entity, space) slot after the given event log has been recorded — the
baseline while the log is empty, and the `event_influence` blend of the
baseline with the log's aggregate afterwards. -/
def slotValue (influence baseline : ℚ) (log : List StreamEvent) : ℚ :=
  if log.isEmpty then baseline
  else blend influence baseline (streamUniformAggregate log)

/-- Failure modes of `record`, as listed in the spec. -/
inductive RecordError where
  | UnknownAffectedEntity
  | UnknownAffectingEntity
  | UnknownSpace
deriving DecidableEq

/-- An incoming event referencing its entities and affected space by id. -/
structure EventInput where
  affecting : String
  affected : String
  space : String
  weight : ℚ
  timestamp : ℤ
deriving DecidableEq

/-- The Event Propagation Engine's state: the ingested entity ids, the
space ids registered on the targeted index, and the append-only event log. -/
structure EngineState where
  entities : List String
  spaces : List String
  log : List EventInput
deriving DecidableEq

/-- Modelled from the spec: `record(event)` validates the event's entity and
space references before appending it to the log; a failing call reports the
error and leaves the state unchanged. -/
def recordEvent (s : EngineState) (ev : EventInput) : EngineState × Option RecordError :=
  if ev.affected ∉ s.entities then (s, some RecordError.UnknownAffectedEntity)
  else if ev.affecting ∉ s.entities then (s, some RecordError.UnknownAffectingEntity)
  else if ev.space ∉ s.spaces then (s, some RecordError.UnknownSpace)
  else ({ s with log := s.log ++ [ev] }, none)

/-! ### Query Planner/Scorer -/

/-- The sentinel meaning "not evaluated", preserved verbatim by the spaces
so that the scorer can special-case it. -/
def sentinel : ℚ := -1

/-- Modelled from the spec: per-slot similarity of a bounded/raw scalar slot
against the probe's value for that slot — the fixed neutral score 0 when
either side carries the "not evaluated" sentinel, and `1 - |entity - probe|`
otherwise. -/
def slotSimilarity (entityVal probeVal : ℚ) : ℚ :=
  if entityVal = sentinel ∨ probeVal = sentinel then 0
  else 1 - |entityVal - probeVal|

/-- Modelled from the spec: the composite score is the weighted sum of the
per-space similarities, `Σ weight_s * similarity_s`. -/
def weightedScore (weights sims : List ℚ) : ℚ :=
  (List.zipWith (· * ·) weights sims).sum

/-- The ranking order of the result sequence: descending by score, ties
broken by entity id ascending. -/
def rankLE (a b : String × ℚ) : Bool :=
  if a.2 = b.2 then strLE a.1 b.1 else decide (b.2 < a.2)

/-- Modelled from the spec: the query scorer returns one (entity id, score)
pair per scored candidate, sorted descending by score with ties broken by
entity id ascending and no truncation. -/
def rankResults (scored : List (String × ℚ)) : List (String × ℚ) :=
  insertionSortB rankLE scored

theorem rankLE_total (a b : String × ℚ) : rankLE a b = true ∨ rankLE b a = true := by
  unfold rankLE
  by_cases h : a.2 = b.2
  · rw [if_pos h, if_pos h.symm]
    exact strLE_total a.1 b.1
  · rw [if_neg h, if_neg (Ne.symm h)]
    rcases lt_trichotomy a.2 b.2 with hlt | heq | hgt
    · right; exact decide_eq_true hlt
    · exact absurd heq h
    · left; exact decide_eq_true hgt

theorem rankLE_trans (a b c : String × ℚ) (h1 : rankLE a b = true)
    (h2 : rankLE b c = true) : rankLE a c = true := by
  unfold rankLE at h1 h2 ⊢
  by_cases hab : a.2 = b.2
  · rw [if_pos hab] at h1
    by_cases hbc : b.2 = c.2
    · rw [if_pos hbc] at h2
      rw [if_pos (hab.trans hbc)]
      exact strLE_trans a.1 b.1 c.1 h1 h2
    · rw [if_neg hbc] at h2
      have h2' : c.2 < b.2 := of_decide_eq_true h2
      have hca : c.2 < a.2 := by rw [hab]; exact h2'
      have hac : ¬ a.2 = c.2 := fun h => absurd (h ▸ hca) (lt_irrefl _)
      rw [if_neg hac]
      exact decide_eq_true hca
  · rw [if_neg hab] at h1
    have h1' : b.2 < a.2 := of_decide_eq_true h1
    by_cases hbc : b.2 = c.2
    · rw [if_pos hbc] at h2
      have hca : c.2 < a.2 := hbc ▸ h1'
      have hac : ¬ a.2 = c.2 := fun h => absurd (h ▸ hca) (lt_irrefl _)
      rw [if_neg hac]
      exact decide_eq_true hca
    · rw [if_neg hbc] at h2
      have h2' : c.2 < b.2 := of_decide_eq_true h2
      have hca : c.2 < a.2 := lt_trans h2' h1'
      have hac : ¬ a.2 = c.2 := fun h => absurd (h ▸ hca) (lt_irrefl _)
      rw [if_neg hac]
      exact decide_eq_true hca

/-! ### The injected clock of `src/main.py` -/

/-- Gregorian leap-year test. -/
def isLeapYear (y : ℕ) : Bool := y % 4 == 0 && (y % 100 != 0 || y % 400 == 0)

/-- Number of days in a year. -/
def daysInYear (y : ℕ) : ℕ := if isLeapYear y then 366 else 365

/-- Month lengths for a (non-)leap year. -/
def monthDays (leap : Bool) : List ℕ :=
  [31, if leap then 29 else 28, 31, 30, 31, 30, 31, 31, 30, 31, 30, 31]

/-- Days from 1970-01-01 to the given calendar date. -/
def daysSinceEpoch (y m d : ℕ) : ℕ :=
  ((List.range (y - 1970)).map (fun i => daysInYear (1970 + i))).sum
    + ((monthDays (isLeapYear y)).take (m - 1)).sum + (d - 1)

/-- Epoch seconds at midnight (UTC) of the given calendar date. -/
def timestampOfDate (y m d : ℕ) : ℕ := 86400 * daysSinceEpoch y m d

/-- The demo's clock, `now = datetime(2025, 11, 12)` turned into epoch
seconds (`src/main.py` lines 68-69), modelled in UTC. -/
def now_timestamp : ℕ := timestampOfDate 2025 11 12

/-! ### Demo configuration and data embedded from `src/main.py` -/

/-- The open position's per-skill weights (`skill_weights`, lines 83-88)
keyed by skill id as in `skill_id_to_weight` (line 91). -/
def skill_id_to_weight : List (String × ℚ) :=
  [("skill1", 1/5), ("skill2", 1/2), ("skill3", 3/10), ("skill4", 1/100000)]

/-- `desired_pay_space` (line 95): MINIMUM mode between the position's
allocated pay 120000 and 300000. -/
def desired_pay_space : BoundedNumberConfig :=
  { min_value := 120000, max_value := 300000, mode := Mode.MINIMUM }

/-- `availability_space` (lines 96-97): MINIMUM mode between `now` and the
position's required date of filling (`now + 50 days`, line 82). -/
def availability_space : BoundedNumberConfig :=
  { min_value := (now_timestamp : ℚ), max_value := (now_timestamp : ℚ) + 50 * 86400,
    mode := Mode.MINIMUM }

/-- `skills_score_space` (line 98): MAXIMUM mode on the range 0 to 10. -/
def skills_score_space : BoundedNumberConfig :=
  { min_value := 0, max_value := 10, mode := Mode.MAXIMUM }

/-- Timestamp of candidate1's evaluation for skill `i` (lines 175, 183,
191): `now - (2 days + 2 hours + (10 - 5*i) minutes)`. -/
def evalTimeA (i : ℕ) : ℤ :=
  (now_timestamp : ℤ) - (2 * 86400 + 2 * 3600 + (10 - 5 * (i : ℤ)) * 60)

/-- Timestamp of candidate2's evaluation for skill `i` (lines 199, 207,
215): `now - (6 days + 2 hours + (10 - 5*i) minutes)`. -/
def evalTimeB (i : ℕ) : ℤ :=
  (now_timestamp : ℤ) - (6 * 86400 + 2 * 3600 + (10 - 5 * (i : ℤ)) * 60)

/-- Candidate1's contribution streams, one per (skill, weight) pair:
evaluations eval1-eval3 give scores 7, 10, 7 on skills 1-3 (lines 159-192);
no evaluation lands on skill4. -/
def demoStreamsA : List (ℚ × List StreamEvent) :=
  [(1/5, [{ value := 7, weight := 1, timestamp := evalTimeA 0 }]),
   (1/2, [{ value := 10, weight := 1, timestamp := evalTimeA 1 }]),
   (3/10, [{ value := 7, weight := 1, timestamp := evalTimeA 2 }]),
   (1/100000, [])]

/-- Candidate2's contribution streams: evaluations eval4-eval6 give scores
7, 8, 10 on skills 1-3 (lines 159-166, 193-216); none on skill4. -/
def demoStreamsB : List (ℚ × List StreamEvent) :=
  [(1/5, [{ value := 7, weight := 1, timestamp := evalTimeB 0 }]),
   (1/2, [{ value := 8, weight := 1, timestamp := evalTimeB 1 }]),
   (3/10, [{ value := 10, weight := 1, timestamp := evalTimeB 2 }]),
   (1/100000, [])]

/-- The scenario's skills-space slot for a candidate: the `event_influence`
blend (influence 1, baseline `skills_score = 0`, lines 117 and 143/154) of
the candidate's event aggregate, normalized by the skills space. -/
def scenarioSkillSlot (streams : List (ℚ × List StreamEvent)) : ℚ :=
  ((boundedCompute skills_score_space
      (blend 1 0 (spaceEventAggregate streams))).headD sentinel)

/-- Similarity of the skills slot against the ideal probe of a MAXIMUM
space (the normalized favorable bound 1). -/
def scenarioSkillSim (streams : List (ℚ × List StreamEvent)) : ℚ :=
  slotSimilarity (scenarioSkillSlot streams) 1

/-- The scored candidate list of the C1 scenario query: weight 9/10 on the
skills space, 0 on the description, pay and availability spaces, whose
similarities are therefore arbitrary. -/
def scenarioScored (dA pA aA dB pB aB : ℚ) : List (String × ℚ) :=
  [("candidate1", weightedScore [0, 0, 0, 9/10]
      [dA, pA, aA, scenarioSkillSim demoStreamsA]),
   ("candidate2", weightedScore [0, 0, 0, 9/10]
      [dB, pB, aB, scenarioSkillSim demoStreamsB])]

/-! ### Helper lemmas -/

theorem clamp01_nonneg (x : ℚ) : 0 ≤ clamp01 x := le_max_left 0 _

theorem clamp01_le_one (x : ℚ) : clamp01 x ≤ 1 :=
  max_le zero_le_one (min_le_left 1 x)

/-! ### Claims -/

/-- C4: for every BoundedNumber space and every input `x`, `compute` returns
the 1-dimensional vector `[clamp((x - min)/(max - min), 0, 1)]` in MAXIMUM
mode and `[1 - clamp(...)]` in MINIMUM mode, and the output always lies in
`[0, 1]` — inputs outside `[min, max]` and boundary inputs are clamped, the
function is total and never errors. -/
theorem c4_boundedCompute_spec (cfg : BoundedNumberConfig) (x : ℚ) :
    (cfg.mode = Mode.MAXIMUM →
      boundedCompute cfg x =
        [clamp01 ((x - cfg.min_value) / (cfg.max_value - cfg.min_value))]) ∧
    (cfg.mode = Mode.MINIMUM →
      boundedCompute cfg x =
        [1 - clamp01 ((x - cfg.min_value) / (cfg.max_value - cfg.min_value))]) ∧
    (∀ v ∈ boundedCompute cfg x, 0 ≤ v ∧ v ≤ 1) := by
  refine ⟨fun hmode => ?_, fun hmode => ?_, fun v hv => ?_⟩
  · simp [boundedCompute, hmode]
  · simp [boundedCompute, hmode]
  · set c := clamp01 ((x - cfg.min_value) / (cfg.max_value - cfg.min_value)) with hc
    have h0 : 0 ≤ c := clamp01_nonneg _
    have h1 : c ≤ 1 := clamp01_le_one _
    rcases hmode : cfg.mode with _ | _
    · simp only [boundedCompute, hmode, ← hc, List.mem_singleton] at hv
      subst hv
      constructor <;> linarith
    · simp only [boundedCompute, hmode, ← hc, List.mem_singleton] at hv
      subst hv
      exact ⟨h0, h1⟩

/-- Witness for C4 at the demo's `desired_pay_space` (MINIMUM mode) applied
to candidate1's desired pay, and at the demo's `skills_score_space`
(MAXIMUM mode) applied to an out-of-range input. -/
theorem c4_boundedCompute_spec_witness :
    boundedCompute desired_pay_space 115000 =
      [1 - clamp01 ((115000 - 120000) / (300000 - 120000))] ∧
    boundedCompute skills_score_space 25 = [clamp01 ((25 - 0) / (10 - 0))] :=
  ⟨(c4_boundedCompute_spec desired_pay_space 115000).2.1 rfl,
   (c4_boundedCompute_spec skills_score_space 25).1 rfl⟩

/-- C2: with the disabled-decay flag set, an event's contribution is
independent of its timestamp — for any contribution stream parameters, an
event contributes the same at timestamp `t` and at `t - 1000`; and with the
temperature taken to infinity, the decayed contribution tends to the plain
event weight, independent of the timestamp. -/
theorem c2_decay_disabled_timestamp_independent :
    (∀ (T w now t : ℝ),
      eventContribution true T w now t = eventContribution true T w now (t - 1000)) ∧
    (∀ (w now t : ℝ),
      Filter.Tendsto (fun T => eventContribution false T w now t)
        Filter.atTop (nhds w)) := by
  constructor
  · intro T w now t
    simp [eventContribution]
  · intro w now t
    have h1 : Filter.Tendsto (fun T : ℝ => (now - t) / T) Filter.atTop (nhds 0) :=
      Filter.Tendsto.div_atTop tendsto_const_nhds Filter.tendsto_id
    have h2 : Filter.Tendsto (fun T : ℝ => -((now - t) / T)) Filter.atTop (nhds 0) := by
      simpa using h1.neg
    have h3 : Filter.Tendsto (fun T : ℝ => Real.exp (-((now - t) / T)))
        Filter.atTop (nhds 1) := by
      have h := (Real.continuous_exp.tendsto 0).comp h2
      simpa [Real.exp_zero] using h
    have h4 := h3.const_mul w
    simpa [eventContribution] using h4

/-- C5: for a fixed positive weight and finite positive temperature, an
event's decayed contribution `w * exp(-(now - t) / T)` strictly decreases
as the age `now - t` increases. -/
theorem c5_decay_strict_antitone (T w now t₁ t₂ : ℝ)
    (hT : 0 < T) (hw : 0 < w) (h : now - t₁ < now - t₂) :
    eventContribution false T w now t₂ < eventContribution false T w now t₁ := by
  unfold eventContribution
  simp only [Bool.false_eq_true, if_false]
  apply mul_lt_mul_of_pos_left _ hw
  apply Real.exp_lt_exp.mpr
  apply neg_lt_neg
  exact (div_lt_div_iff_of_pos_right hT).mpr h

/-- Witness for C5: temperature 1, weight 1, an event one second old versus
the same event two seconds old. -/
theorem c5_decay_strict_antitone_witness :
    eventContribution false 1 1 2 0 < eventContribution false 1 1 2 1 :=
  c5_decay_strict_antitone 1 1 2 1 0 (by norm_num) (by norm_num) (by norm_num)

/-- C3: the slot value the engine holds equals
`(1 - influence) * baseline + influence * event_aggregate` once events have
been recorded; with `event_influence = 0` no event log moves the slot off
its baseline, and with `event_influence = 1` the slot is independent of the
baseline once at least one event has been recorded. -/
theorem c3_event_influence_blend :
    (∀ (influence baseline : ℚ) (log : List StreamEvent), log ≠ [] →
      slotValue influence baseline log =
        (1 - influence) * baseline + influence * streamUniformAggregate log) ∧
    (∀ (baseline : ℚ) (log : List StreamEvent), slotValue 0 baseline log = baseline) ∧
    (∀ (b₁ b₂ : ℚ) (log : List StreamEvent), log ≠ [] →
      slotValue 1 b₁ log = slotValue 1 b₂ log) := by
  refine ⟨fun influence baseline log hlog => ?_, fun baseline log => ?_,
    fun b₁ b₂ log hlog => ?_⟩
  · rw [slotValue, if_neg (by simpa [List.isEmpty_iff] using hlog)]
    rfl
  · by_cases hlog : log.isEmpty
    · rw [slotValue, if_pos hlog]
    · rw [slotValue, if_neg hlog, blend]
      ring
  · have hne : ¬ log.isEmpty = true := by simpa [List.isEmpty_iff] using hlog
    rw [slotValue, if_neg hne, slotValue, if_neg hne, blend, blend]
    ring

/-- Witness for C3: a one-event log; influence 0 keeps the slot at
baseline 5, influence 1 gives the same slot value over baselines 3 and 9. -/
theorem c3_event_influence_blend_witness :
    slotValue 0 5 [{ value := 7, weight := 1, timestamp := 0 }] = 5 ∧
    slotValue 1 3 [{ value := 7, weight := 1, timestamp := 0 }] =
      slotValue 1 9 [{ value := 7, weight := 1, timestamp := 0 }] :=
  ⟨c3_event_influence_blend.2.1 5 _,
   c3_event_influence_blend.2.2 3 9 _ (List.cons_ne_nil _ _)⟩

/-- C7: a slot where either the entity or the probe carries the "not
evaluated" sentinel contributes exactly the neutral score 0, and against a
probe that carries the sentinel, a candidate whose slot is the sentinel
never scores lower on that slot than a candidate with a genuinely low
score there. -/
theorem c7_sentinel_neutral :
    (∀ e p : ℚ, (e = sentinel ∨ p = sentinel) → slotSimilarity e p = 0) ∧
    (∀ vLow p : ℚ, p = sentinel →
      slotSimilarity sentinel p ≥ slotSimilarity vLow p) := by
  constructor
  · intro e p h
    rw [slotSimilarity, if_pos h]
  · intro vLow p hp
    subst hp
    rw [slotSimilarity, if_pos (Or.inl rfl), slotSimilarity, if_pos (Or.inr rfl)]

/-- Witness for C7: a sentinel entity slot against probe 1 scores 0, and
against a sentinel probe the sentinel slot does not score below a genuine
low score of 0. -/
theorem c7_sentinel_neutral_witness :
    slotSimilarity sentinel 1 = 0 ∧
    slotSimilarity sentinel sentinel ≥ slotSimilarity 0 sentinel :=
  ⟨c7_sentinel_neutral.1 sentinel 1 (Or.inl rfl),
   c7_sentinel_neutral.2 0 sentinel rfl⟩

/-- C8: `record` fails with `UnknownAffectedEntity` or
`UnknownAffectingEntity` when the respective entity id was never ingested
and with `UnknownSpace` when the affected space is not registered on the
targeted index; each failure is reported to the caller and returns the
engine state unchanged, so the failing call has no effect. -/
theorem c8_record_failure_modes (s : EngineState) (ev : EventInput) :
    (ev.affected ∉ s.entities →
      recordEvent s ev = (s, some RecordError.UnknownAffectedEntity)) ∧
    (ev.affected ∈ s.entities → ev.affecting ∉ s.entities →
      recordEvent s ev = (s, some RecordError.UnknownAffectingEntity)) ∧
    (ev.affected ∈ s.entities → ev.affecting ∈ s.entities → ev.space ∉ s.spaces →
      recordEvent s ev = (s, some RecordError.UnknownSpace)) := by
  refine ⟨fun h1 => ?_, fun h1 h2 => ?_, fun h1 h2 h3 => ?_⟩
  · rw [recordEvent, if_pos h1]
  · rw [recordEvent, if_neg (by simpa using h1), if_pos h2]
  · rw [recordEvent, if_neg (by simpa using h1), if_neg (by simpa using h2),
      if_pos h3]

/-- Witness for C8: an engine state knowing entities `candidate1`,
`skillscore1` and space `skills`, hit with events carrying an unknown
affected entity, an unknown affecting entity, and an unknown space. -/
theorem c8_record_failure_modes_witness :
    recordEvent ⟨["candidate1", "skillscore1"], ["skills"], []⟩
        ⟨"skillscore1", "ghost", "skills", 1, 0⟩ =
      (⟨["candidate1", "skillscore1"], ["skills"], []⟩,
        some RecordError.UnknownAffectedEntity) ∧
    recordEvent ⟨["candidate1", "skillscore1"], ["skills"], []⟩
        ⟨"ghost", "candidate1", "skills", 1, 0⟩ =
      (⟨["candidate1", "skillscore1"], ["skills"], []⟩,
        some RecordError.UnknownAffectingEntity) ∧
    recordEvent ⟨["candidate1", "skillscore1"], ["skills"], []⟩
        ⟨"skillscore1", "candidate1", "pay", 1, 0⟩ =
      (⟨["candidate1", "skillscore1"], ["skills"], []⟩,
        some RecordError.UnknownSpace) :=
  ⟨(c8_record_failure_modes _ _).1 (by simp),
   (c8_record_failure_modes _ _).2.1 (by simp) (by simp),
   (c8_record_failure_modes _ _).2.2 (by simp) (by simp) (by simp)⟩

/-- Each space's successful output has exactly its declared dimension,
provided a text-similarity space's embedding honours its stable contract. -/
theorem Space.compute_length (s : Space) (e : Entity) (v : List ℚ)
    (hwf : SpaceWF s) (h : s.compute e = Except.ok v) :
    v.length = spaceDim s.kind := by
  rcases s with ⟨kind, attr⟩
  rcases hattr : Entity.attr e attr with _ | val
  · rcases kind with ⟨embed, d⟩ | cfg | n <;>
      simp [Space.compute, hattr] at h
  · rcases kind with ⟨embed, d⟩ | cfg | n
    · rcases val with t | q | w <;> simp [Space.compute, hattr] at h
      subst h
      exact hwf t
    · rcases val with t | q | w <;> simp [Space.compute, hattr] at h
      subst h
      rcases cfg with ⟨mn, mx, mode⟩
      rcases mode with _ | _ <;> simp [boundedCompute, spaceDim]
    · rcases val with t | q | w <;> simp [Space.compute, hattr] at h
      by_cases hlen : w.length = n
      · rw [if_pos hlen] at h
        simp only [Except.ok.injEq] at h
        subst h
        exact hlen
      · rw [if_neg hlen] at h
        cases h

/-- C6: for every registered space combination whose text spaces honour the
embedding contract, a successful `upsert` immediately followed by
`vector_of` returns a vector whose length is exactly the sum of the
registered spaces' dimensions; and a space whose dry-run probe output
mismatches its declared dimension is rejected with `DimensionMismatch` at
registration time. -/
theorem c6_composite_length_invariant :
    (∀ (spaces : List Space) (store : List (String × List ℚ)) (e : Entity)
        (store' : List (String × List ℚ)),
      (∀ s ∈ spaces, SpaceWF s) → upsert spaces store e = Except.ok store' →
      ∃ v, vectorOf store' e.id = some v ∧ v.length = sumDims spaces) ∧
    (∀ (index : List Space) (s : Space) (probe : Entity) (v : List ℚ),
      s.compute probe = Except.ok v → v.length ≠ spaceDim s.kind →
      registerSpace index s probe = Except.error SpaceError.DimensionMismatch) := by
  have hcomp : ∀ (spaces : List Space) (e : Entity) (v : List ℚ),
      (∀ s ∈ spaces, SpaceWF s) → compositeVector spaces e = Except.ok v →
      v.length = sumDims spaces := by
    intro spaces
    induction spaces with
    | nil =>
      intro e v _ h
      simp only [compositeVector, Except.ok.injEq] at h
      subst h
      simp [sumDims]
    | cons s rest ih =>
      intro e v hwf h
      rcases hs : Space.compute s e with err | w
      · simp [compositeVector, hs] at h
      · rcases hr : compositeVector rest e with err | ws
        · simp [compositeVector, hs, hr] at h
        · simp only [compositeVector, hs, hr, Except.ok.injEq] at h
          subst h
          have h1 := Space.compute_length s e w (hwf s (List.mem_cons_self s rest)) hs
          have h2 := ih e ws (fun t ht => hwf t (List.mem_cons_of_mem s ht)) hr
          simp [sumDims] at h2 ⊢
          omega
  constructor
  · intro spaces store e store' hwf h
    rcases hc : compositeVector spaces e with err | v
    · simp [upsert, hc] at h
    · simp only [upsert, hc, Except.ok.injEq] at h
      subst h
      refine ⟨v, ?_, hcomp spaces e v hwf hc⟩
      simp [vectorOf, upsertStore, List.lookup]
  · intro index s probe v h hne
    simp only [registerSpace, h]
    rw [if_neg hne]

/-- A one-space index holding only the demo's skills space. -/
def skillsOnlyIndex : List Space :=
  [{ kind := SpaceKind.boundedNumber skills_score_space, attr := "skills_score" }]

/-- Candidate1 reduced to its skills-score attribute (baseline 0, line 143). -/
def candidate1SkillsEntity : Entity :=
  { id := "candidate1", attrs := [("skills_score", RawValue.num 0)] }

/-- A text space declaring dimension 2 whose embedding returns 1 dimension. -/
def mismatchedTextSpace : Space :=
  { kind := SpaceKind.textSimilarity (fun _ => [0]) 2, attr := "self_description" }

/-- A probe entity carrying a text attribute for the dry-run registration. -/
def dryRunProbe : Entity :=
  { id := "probe", attrs := [("self_description", RawValue.text "x")] }

/-- Witness for C6: upserting candidate1's skills score through a one-space
index yields a stored vector whose length is the index's dimension sum, and
registering a text space whose embedding probe returns one dimension while
the space declares two is rejected at registration time. -/
theorem c6_composite_length_invariant_witness :
    (∃ v, vectorOf (upsertStore [] "candidate1"
        (boundedCompute skills_score_space 0)) "candidate1" = some v ∧
      v.length = sumDims skillsOnlyIndex) ∧
    registerSpace [] mismatchedTextSpace dryRunProbe =
      Except.error SpaceError.DimensionMismatch := by
  constructor
  · have h := c6_composite_length_invariant.1 skillsOnlyIndex []
      candidate1SkillsEntity
      (upsertStore [] "candidate1" (boundedCompute skills_score_space 0))
      (by intro s hs
          simp only [skillsOnlyIndex, List.mem_singleton] at hs
          subst hs
          simp [SpaceWF])
      (by simp [upsert, compositeVector, skillsOnlyIndex, candidate1SkillsEntity,
            Space.compute, Entity.attr, List.lookup])
    simpa [candidate1SkillsEntity] using h
  · exact c6_composite_length_invariant.2 [] mismatchedTextSpace dryRunProbe [0]
      (by simp [mismatchedTextSpace, dryRunProbe, Space.compute, Entity.attr,
            List.lookup])
      (by simp [mismatchedTextSpace, spaceDim])

/-- One (entity id, score) pair per candidate, ranked. -/
def queryRank (cands : List (String × List ℚ)) (score : List ℚ → ℚ) :
    List (String × ℚ) :=
  rankResults (cands.map (fun c => (c.1, score c.2)))

/-- C9: the returned sequence has exactly one (entity id, score) pair per
candidate with a composite vector — no implicit truncation — and is sorted
descending by score with ties broken by entity id ascending. -/
theorem c9_query_ranking_contract (cands : List (String × List ℚ))
    (score : List ℚ → ℚ) :
    (queryRank cands score).length = cands.length ∧
    (∀ c ∈ cands, (c.1, score c.2) ∈ queryRank cands score) ∧
    (queryRank cands score).Pairwise
      (fun a b => b.2 < a.2 ∨ (a.2 = b.2 ∧ strLE a.1 b.1 = true)) := by
  have hperm : List.Perm (queryRank cands score)
      (cands.map (fun c => (c.1, score c.2))) :=
    insertionSortB_perm rankLE _
  refine ⟨?_, fun c hc => ?_, ?_⟩
  · rw [hperm.length_eq, List.length_map]
  · exact hperm.mem_iff.mpr (List.mem_map_of_mem _ hc)
  · have h := insertionSortB_pairwise rankLE rankLE_total rankLE_trans
      (cands.map (fun c => (c.1, score c.2)))
    refine List.Pairwise.imp ?_ h
    intro a b hab
    unfold rankLE at hab
    by_cases hq : a.2 = b.2
    · rw [if_pos hq] at hab
      exact Or.inr ⟨hq, hab⟩
    · rw [if_neg hq] at hab
      exact Or.inl (of_decide_eq_true hab)

/-- C1 counterexample: in the end-to-end scenario candidate A's aggregate
skill value is the weighted sum `0.2*7 + 0.5*10 + 0.3*7 = 8.5`, not the
claimed `7.5` — the claimed scenario outcome is false on its first
conjunct. -/
theorem c1_counterexample : spaceEventAggregate demoStreamsA ≠ 15 / 2 := by
  norm_num [spaceEventAggregate, demoStreamsA, streamUniformAggregate]

/-- C1 (amended): for the end-to-end scenario with `event_influence = 1`
and decay disabled, A's aggregate skill value equals 8.5 and B's equals
8.4, and a query weighting this space 0.9 with 0 on all other spaces ranks
A above B. -/
theorem c1_scenario_amended :
    spaceEventAggregate demoStreamsA = 17 / 2 ∧
    spaceEventAggregate demoStreamsB = 42 / 5 ∧
    ∀ dA pA aA dB pB aB : ℚ,
      (rankResults (scenarioScored dA pA aA dB pB aB)).map Prod.fst =
        ["candidate1", "candidate2"] := by
  refine ⟨?_, ?_, fun dA pA aA dB pB aB => ?_⟩
  · norm_num [spaceEventAggregate, demoStreamsA, streamUniformAggregate]
  · norm_num [spaceEventAggregate, demoStreamsB, streamUniformAggregate]
  · norm_num [rankResults, scenarioScored, weightedScore, insertionSortB,
      insertSorted, rankLE, scenarioSkillSim, scenarioSkillSlot,
      spaceEventAggregate, demoStreamsA, demoStreamsB, streamUniformAggregate,
      blend, boundedCompute, skills_score_space, clamp01, slotSimilarity,
      sentinel, abs, max_def, min_def]

/-! ### The demo run (`main`) as a deterministic function of the injected
embedding, for the determinism claim -/

/-- The open position's description text (line 80), used as the
description-space probe (line 230). -/
def positionDescriptionText : String :=
  "We are looking for a skilled frontend developer to join our team. Must be proficient in JavaScript, React, and CSS."

/-- Candidate1's self-description (line 141). -/
def aliceDescriptionText : String :=
  "Experienced frontend developer with a passion for creating user-friendly web applications."

/-- Candidate2's self-description (line 152). -/
def bobDescriptionText : String :=
  "Seasoned developer with expertise in React and a strong focus on team collaboration."

/-- Candidate1's normalized desired-pay slot (desired pay 115000, line 140). -/
def payNormA : ℚ := (boundedCompute desired_pay_space 115000).headD sentinel

/-- Candidate2's normalized desired-pay slot (desired pay 125000, line 151). -/
def payNormB : ℚ := (boundedCompute desired_pay_space 125000).headD sentinel

/-- Candidate1's normalized availability slot (`now + 15 days`, line 142). -/
def availNormA : ℚ :=
  (boundedCompute availability_space ((now_timestamp : ℚ) + 15 * 86400)).headD sentinel

/-- Candidate2's normalized availability slot (`now + 20 days`, line 153). -/
def availNormB : ℚ :=
  (boundedCompute availability_space ((now_timestamp : ℚ) + 20 * 86400)).headD sentinel

/-- Dot product of two embedding vectors; the spec's cosine similarity with
the normalization folded into the injected embedding function. -/
noncomputable def dotR (v w : List ℝ) : ℝ := (List.zipWith (fun a b => a * b) v w).sum

/-- The ranking order over real-valued scores: descending by score, ties
broken by entity id ascending. -/
noncomputable def rankLEReal (a b : String × ℝ) : Bool :=
  if a.2 = b.2 then strLE a.1 b.1 else decide (b.2 < a.2)

/-- Modelled from the spec: the decay weight `exp(-(now - t)/T)` of one
event. -/
noncomputable def decayFactorR (T now t : ℝ) : ℝ := Real.exp (-((now - t) / T))

/-- Modelled from the spec: the decayed weighted average of one
contribution stream at query time `now`. -/
noncomputable def streamDecayedAggregate (T now : ℝ) (evs : List StreamEvent) : ℝ :=
  ((evs.map (fun e => (e.weight : ℝ) * decayFactorR T now (e.timestamp : ℝ)
      * (e.value : ℝ))).sum)
    / ((evs.map (fun e => (e.weight : ℝ) * decayFactorR T now (e.timestamp : ℝ))).sum)

/-- Modelled from the spec: the per-space decayed event aggregate, the
weighted sum of the nonempty contribution streams. -/
noncomputable def spaceEventAggregateR (T now : ℝ)
    (streams : List (ℚ × List StreamEvent)) : ℝ :=
  ((streams.filter (fun s => !s.2.isEmpty)).map
    (fun s => (s.1 : ℝ) * streamDecayedAggregate T now s.2)).sum

/-- Real-valued clamp to the unit interval. -/
noncomputable def clamp01R (x : ℝ) : ℝ := max 0 (min 1 x)

/-- Real-valued `event_influence` blend. -/
noncomputable def blendR (influence baseline aggregate : ℝ) : ℝ :=
  (1 - influence) * baseline + influence * aggregate

/-- A candidate's composite query score under the demo's default weights
(description 0.03, desired pay 0.03, availability 0.04, skills score 0.9,
lines 222-227), with `event_influence = 1`, baseline skills score 0 and
`temperature = 0.5` (lines 117-118), evaluated at the injected context
clock `ctxNow`. -/
noncomputable def demoCandidateScore (embed : String → List ℝ) (ctxNow : ℝ)
    (desc : String) (payNorm availNorm : ℚ)
    (streams : List (ℚ × List StreamEvent)) : ℝ :=
  3 / 100 * dotR (embed positionDescriptionText) (embed desc)
    + 3 / 100 * ((slotSimilarity payNorm 1 : ℚ) : ℝ)
    + 1 / 25 * ((slotSimilarity availNorm 1 : ℚ) : ℝ)
    + 9 / 10 * (1 - |clamp01R (blendR 1 0
        (spaceEventAggregateR (1 / 2) ctxNow streams) / 10) - 1|)

/-- The demo program's query result as a function of the injected embedding
and of the ambient machine clock.  The ambient clock is never read: every
time-dependent computation uses the constant `now_timestamp` injected
through the executor's context data (`CONTEXT_DATA`, line 70). -/
noncomputable def demoRun (embed : String → List ℝ) (_ambientClock : ℕ) :
    List (String × ℝ) :=
  insertionSortB rankLEReal
    [("candidate1", demoCandidateScore embed (now_timestamp : ℝ)
        aliceDescriptionText payNormA availNormA demoStreamsA),
     ("candidate2", demoCandidateScore embed (now_timestamp : ℝ)
        bobDescriptionText payNormB availNormB demoStreamsB)]

/-- C10: the demo is deterministic — its clock is the fixed constant
`datetime(2025, 11, 12)` (epoch seconds 1762905600) injected through the
executor's context data rather than read from a global clock, so for any
fixed deterministic embedding function two runs of `main`, at arbitrary
ambient clock readings, produce identical ranked query results. -/
theorem c10_demo_deterministic :
    (∀ (embed : String → List ℝ) (clock₁ clock₂ : ℕ),
      demoRun embed clock₁ = demoRun embed clock₂) ∧
    now_timestamp = 1762905600 :=
  ⟨fun _ _ _ => rfl, by decide⟩

end CandidateRanking
